import Mathlib

/-!
Verification of the fee recording system (Flask app `src/app.py`).

Shallow embedding of the fee / late-fee calculator and its callers.

Modelling conventions:
* The SQLite database is a record of row lists; `fetchone` on a
  primary-key lookup is `List.find?`, and `SUM` over a filtered table is a
  list sum, preserving row order.
* Money (`REAL` columns, Python floats) is modelled as `ℚ` with exact
  arithmetic, matching the currency semantics of the calculator; the
  literal `0.02` is the exact rational 2 / 100.
* `datetime.now()` is an explicit parameter `now : ℤ`, measured in
  microseconds from the epoch of `datetime.toordinal`, so the date with
  ordinal `d` begins at instant `d * usPerDay`.  `strptime` with format
  `%Y-%m-%d` is `parse_date`, returning the proleptic Gregorian ordinal on
  success; it reproduces the strptime format regex (a 4-digit year and a
  month and day of one or two digits, the whole string consumed) together
  with the range validation done by the `datetime` constructor.
* `re.match` of `PHONE_REGEX` is `is_valid_phone`; the Python dollar
  anchor also matches just before one newline that ends the string, which
  the model reproduces.  The digit class is modelled as the ASCII digits
  (the phone strings of interest are ASCII).
-/

namespace FeeSystem

/-- Row of the `students` table (`admission_no` is the primary key). -/
structure Student where
  admission_no : String
  name : String
  class_name : String
  phone : String
deriving DecidableEq

/-- Row of the `fee_structure` table (`class` is the primary key). -/
structure FeeRow where
  class_name : String
  fee_amount : ℚ
deriving DecidableEq

/-- Row of the `payments` table. -/
structure Payment where
  admission_no : String
  amount_paid : ℚ
  payment_date : String
deriving DecidableEq

/-- Row of the `fee_cycles` table. -/
structure FeeCycle where
  admission_no : String
  due_date : String
deriving DecidableEq

/-- Database state read by the calculator. -/
structure DB where
  students : List Student
  fee_structure : List FeeRow
  payments : List Payment
  fee_cycles : List FeeCycle
deriving DecidableEq

/-! ## Date parsing: strptime with format `%Y-%m-%d` -/

/-- Gregorian leap-year test, exactly as in the Python `datetime` module. -/
def is_leap (y : ℕ) : Bool :=
  (y % 4 == 0 && y % 100 != 0) || y % 400 == 0

/-- Days in month `m` of year `y`, for `m` between 1 and 12. -/
def days_in_month (y m : ℕ) : ℕ :=
  if m = 2 then (if is_leap y then 29 else 28)
  else if m = 4 ∨ m = 6 ∨ m = 9 ∨ m = 11 then 30
  else 31

/-- Days in year `y` before month `m`, for `m` between 1 and 12. -/
def days_before_month (y m : ℕ) : ℕ :=
  ((List.range (m - 1)).map (fun i => days_in_month y (i + 1))).sum

/-- Proleptic Gregorian ordinal of the date `y-m-d`, as computed by
`datetime.toordinal` (January 1 of year 1 is day 1). -/
def toordinal (y m d : ℕ) : ℕ :=
  365 * (y - 1) + (y - 1) / 4 - (y - 1) / 100 + (y - 1) / 400
    + days_before_month y m + d

/-- Split a character list at every dash (the shape imposed by the
`%Y-%m-%d` format string). -/
def split_dash : List Char → List (List Char)
  | [] => [[]]
  | c :: rest =>
    if c = '-' then [] :: split_dash rest
    else
      match split_dash rest with
      | [] => [[c]]
      | p :: ps => (c :: p) :: ps

/-- Numeric value of a nonempty all-digit character list, else `none`. -/
def digits_val (cs : List Char) : Option ℕ :=
  if cs ≠ [] ∧ cs.all Char.isDigit then
    some (cs.foldl (fun a c => 10 * a + (c.toNat - 48)) 0)
  else none

/-- Model of `datetime.strptime(s, %Y-%m-%d)`, returning the ordinal of
the parsed date: exactly three dash-separated fields; a 4-digit year, a
month of one or two digits in `[1, 12]`, a day of one or two digits in
`[1, days_in_month]`; year `0000` is rejected by the `datetime`
constructor (`MINYEAR` is 1).  Everything else raises `ValueError`,
modelled as `none`. -/
def parse_date (s : String) : Option ℕ :=
  match split_dash s.data with
  | [ys, ms, ds] =>
    match digits_val ys, digits_val ms, digits_val ds with
    | some y, some m, some d =>
      if ys.length = 4 ∧ ms.length ≤ 2 ∧ ds.length ≤ 2 ∧
          1 ≤ y ∧ 1 ≤ m ∧ m ≤ 12 ∧ 1 ≤ d ∧ d ≤ days_in_month y m
      then some (toordinal y m d)
      else none
    | _, _, _ => none
  | _ => none

/-- Microseconds per day; the date of ordinal `d` begins at instant
`d * usPerDay`. -/
def usPerDay : ℤ := 86400000000

/-! ## The calculator: `get_total_fee`, `get_total_paid`, `get_due_amount` -/

/-- Model of `get_total_fee`: look up the student by admission number,
then the fee row for the class of the student; `None` (absence) when
either lookup comes back empty. -/
def get_total_fee (db : DB) (adm : String) : Option ℚ :=
  match db.students.find? (fun s => s.admission_no == adm) with
  | none => none
  | some s =>
    match db.fee_structure.find? (fun r => r.class_name == s.class_name) with
    | none => none
    | some r => some r.fee_amount

/-- Model of `get_total_paid`: `SUM(amount_paid)` over the payments of
the student, `0.0` when the sum is `NULL` (no rows). -/
def get_total_paid (db : DB) (adm : String) : ℚ :=
  ((db.payments.filter (fun p => p.admission_no == adm)).map
    (fun p => p.amount_paid)).sum

/-- Due-date strings of the fee cycles of the student, in table order. -/
def cycle_dates (db : DB) (adm : String) : List String :=
  (db.fee_cycles.filter (fun c => c.admission_no == adm)).map
    (fun c => c.due_date)

/-- Model of `(today - due_date).days // 7` for `today = now` and a due
date of ordinal `d`: whole days elapsed (floor), floor-divided by 7. -/
def weeks_late (now : ℤ) (d : ℕ) : ℕ :=
  (now - (d : ℤ) * usPerDay).toNat / 86400000000 / 7

/-- One iteration of the late-fee loop: the contribution of a single
cycle with due-date string `s`.  An unparseable date is skipped
(`continue`); a parsed cycle contributes
`(total_fee - total_paid) * 0.02 * weeks` exactly when `today > due_date`,
`weeks > 0` and `total_fee - total_paid > 0`. -/
def cycle_late_fee (fee paid : ℚ) (now : ℤ) (s : String) : ℚ :=
  match parse_date s with
  | none => 0
  | some d =>
    if (d : ℤ) * usPerDay < now then
      if 0 < weeks_late now d ∧ 0 < fee - paid then
        (fee - paid) * 0.02 * (weeks_late now d : ℚ)
      else 0
    else 0

/-- The late-fee accumulation loop of `get_due_amount`: start from
`late_fee = 0.0` and add the contribution of every cycle in turn. -/
def late_fee_total (fee paid : ℚ) (now : ℤ) (dates : List String) : ℚ :=
  dates.foldl (fun acc s => acc + cycle_late_fee fee paid now s) 0

/-- Model of `get_due_amount`: absence when the fee is unconfigured;
otherwise `(total_fee + late_fee) - total_paid`, floored at `0`. -/
def get_due_amount (db : DB) (now : ℤ) (adm : String) : Option ℚ :=
  match get_total_fee db adm with
  | none => none
  | some total_fee =>
    let total_paid := get_total_paid db adm
    let late_fee := late_fee_total total_fee total_paid now (cycle_dates db adm)
    let total_due := (total_fee + late_fee) - total_paid
    some (if 0 < total_due then total_due else 0)

/-- Copy of a database with the unparseable-due-date cycles removed,
used to state that `get_due_amount` ignores exactly those cycles. -/
def drop_unparseable (db : DB) : DB :=
  { db with
    fee_cycles := db.fee_cycles.filter (fun c => (parse_date c.due_date).isSome) }

/-! ## The inline due computation of the index and send_reminders routes -/

/-- Fee lookup done inline by the `index` and `send_reminders` routes:
`fee_row` if present else `0` — absence becomes the number `0`. -/
def inline_total_fee (db : DB) (s : Student) : ℚ :=
  match db.fee_structure.find? (fun r => r.class_name == s.class_name) with
  | none => 0
  | some r => r.fee_amount

/-- Due amount computed inline by the `index` and `send_reminders`
routes: `due = total_fee - total_paid`, with no late fees, no cycle walk
and no floor at zero. -/
def inline_due (db : DB) (s : Student) : ℚ :=
  inline_total_fee db s - get_total_paid db s.admission_no

/-! ## Phone validation: `re.match` with pattern `^\+?[1-9]\d` 7 to 14 `$` -/

/-- Strip the optional leading plus sign of the pattern. -/
def strip_plus (cs : List Char) : List Char :=
  match cs with
  | [] => []
  | c :: rest => if c = '+' then rest else c :: rest

/-- Part of the phone pattern after the optional plus: one digit 1 to 9,
then 7 to 14 digits, then the dollar anchor, where the Python dollar
matches at the end of the string or just before a newline that ends the
string. -/
def phone_tail_ok (ds : List Char) : Bool :=
  match ds with
  | [] => false
  | c :: rest =>
    ('1' ≤ c && c ≤ '9') &&
    (List.range 8).any (fun i =>
      (rest.take (7 + i)).length = 7 + i &&
      (rest.take (7 + i)).all Char.isDigit &&
      ((rest.drop (7 + i)).isEmpty || rest.drop (7 + i) == ['\n']))

/-- Model of `is_valid_phone`, that is of `bool(PHONE_REGEX.match(phone))`. -/
def is_valid_phone (phone : String) : Bool :=
  phone_tail_ok (strip_plus phone.data)

/-- Spec-side phone format, on a character list with the optional plus
already stripped: a first digit 1 to 9, then 7 to 14 more digits and
nothing else (8 to 15 digits total, no leading zero). -/
def spec_tail (ds : List Char) : Bool :=
  match ds with
  | [] => false
  | c :: rest =>
    ('1' ≤ c && c ≤ '9') && rest.all Char.isDigit &&
      7 ≤ rest.length && rest.length ≤ 14

/-- Spec-side phone predicate, worded from the spec for comparison with
`is_valid_phone`: an optional leading plus, a first digit 1 to 9, then 7
to 14 more digits and nothing else. -/
def phone_spec (phone : String) : Bool :=
  spec_tail (strip_plus phone.data)

/-! ## Concrete database states used to instantiate the theorems -/

/-- Student with fee 100, payments 40, two cycles each 2 whole weeks
overdue on 2026-10-12. -/
def dbLate : DB where
  students := [⟨"S1", "Alice", "A", "+12345678"⟩]
  fee_structure := [⟨"A", 100⟩]
  payments := [⟨"S1", 40, "2026-10-01"⟩]
  fee_cycles := [⟨"S1", "2026-09-28"⟩, ⟨"S1", "2026-09-26"⟩]

/-- Midnight of 2026-10-12 in the time scale of the model. -/
def nowOct12 : ℤ :=
  (toordinal 2026 10 12 : ℤ) * usPerDay

/-- Student row used by the overpaid example. -/
def stuOverpaid : Student :=
  ⟨"S1", "Bob", "A", "+12345678"⟩

/-- Student with fee 50 and payments 80: overpaid, no cycles. -/
def dbOverpaid : DB where
  students := [stuOverpaid]
  fee_structure := [⟨"A", 50⟩]
  payments := [⟨"S1", 80, "2026-10-01"⟩]
  fee_cycles := []

/-- Student row used by the plain example. -/
def stuPlain : Student :=
  ⟨"S1", "Carol", "A", "+12345678"⟩

/-- Student with fee 100, payments 40, no cycles. -/
def dbPlain : DB where
  students := [stuPlain]
  fee_structure := [⟨"A", 100⟩]
  payments := [⟨"S1", 40, "2026-10-01"⟩]
  fee_cycles := []

/-- Student whose class has a configured fee of exactly 0. -/
def dbZeroFee : DB where
  students := [⟨"S1", "Dan", "A", "+12345678"⟩]
  fee_structure := [⟨"A", 0⟩]
  payments := []
  fee_cycles := [⟨"S1", "2026-09-28"⟩]

/-- Student whose class has no fee row at all, with payment and cycle
data present. -/
def dbNoFeeRow : DB where
  students := [⟨"S1", "Eve", "B", "+12345678"⟩]
  fee_structure := [⟨"A", 100⟩]
  payments := [⟨"S1", 40, "2026-10-01"⟩]
  fee_cycles := [⟨"S1", "2026-09-28"⟩]

/-- Copy of `dbLate` with an extra payment row for a different student:
identical fee schedule, payment history and cycle list for student S1. -/
def dbLateTwin : DB where
  students := [⟨"S1", "Alice", "A", "+12345678"⟩, ⟨"S2", "Fred", "A", "+12345679"⟩]
  fee_structure := [⟨"A", 100⟩]
  payments := [⟨"S1", 40, "2026-10-01"⟩, ⟨"S2", 10, "2026-10-02"⟩]
  fee_cycles := [⟨"S1", "2026-09-28"⟩, ⟨"S1", "2026-09-26"⟩, ⟨"S2", "2026-01-01"⟩]

/-! ## Helper lemmas about the late-fee loop -/

lemma late_fee_total_nil (fee paid : ℚ) (now : ℤ) :
    late_fee_total fee paid now [] = 0 := rfl

lemma foldl_late_fee (fee paid : ℚ) (now : ℤ) (dates : List String) :
    ∀ acc : ℚ,
      dates.foldl (fun acc s => acc + cycle_late_fee fee paid now s) acc
        = acc + late_fee_total fee paid now dates := by
  induction dates with
  | nil =>
    intro acc
    rw [List.foldl_nil, late_fee_total_nil, add_zero]
  | cons s l ih =>
    intro acc
    rw [List.foldl_cons, ih]
    conv_rhs => rw [late_fee_total, List.foldl_cons, ih]
    ring

lemma late_fee_total_cons (fee paid : ℚ) (now : ℤ) (s : String)
    (l : List String) :
    late_fee_total fee paid now (s :: l)
      = cycle_late_fee fee paid now s + late_fee_total fee paid now l := by
  rw [late_fee_total, List.foldl_cons, foldl_late_fee]
  ring

lemma cycle_late_fee_of_unparseable (fee paid : ℚ) (now : ℤ) (s : String)
    (h : parse_date s = none) : cycle_late_fee fee paid now s = 0 := by
  simp [cycle_late_fee, h]

lemma cycle_late_fee_of_nonpos (fee paid : ℚ) (now : ℤ) (s : String)
    (h : fee - paid ≤ 0) : cycle_late_fee fee paid now s = 0 := by
  unfold cycle_late_fee
  cases parse_date s with
  | none => rfl
  | some d =>
    simp only
    split
    · rw [if_neg]
      rintro ⟨-, hpos⟩
      exact absurd h (not_le.mpr hpos)
    · rfl

lemma late_fee_total_of_nonpos (fee paid : ℚ) (now : ℤ)
    (dates : List String) (h : fee - paid ≤ 0) :
    late_fee_total fee paid now dates = 0 := by
  induction dates with
  | nil => rfl
  | cons s l ih =>
    rw [late_fee_total_cons, cycle_late_fee_of_nonpos fee paid now s h, ih,
      add_zero]

lemma get_due_amount_of_fee (db : DB) (now : ℤ) (adm : String) (fee : ℚ)
    (hfee : get_total_fee db adm = some fee) :
    get_due_amount db now adm =
      some (if 0 < (fee + late_fee_total fee (get_total_paid db adm) now
            (cycle_dates db adm)) - get_total_paid db adm
        then (fee + late_fee_total fee (get_total_paid db adm) now
            (cycle_dates db adm)) - get_total_paid db adm
        else 0) := by
  simp only [get_due_amount, hfee]

lemma get_due_amount_of_absent (db : DB) (now : ℤ) (adm : String)
    (hfee : get_total_fee db adm = none) :
    get_due_amount db now adm = none := by
  simp only [get_due_amount, hfee]

lemma filter_cons_pos {α : Type} (p : α → Bool) (a : α) (l : List α)
    (h : p a = true) : (a :: l).filter p = a :: l.filter p := by
  simp [List.filter_cons, h]

lemma filter_cons_neg {α : Type} (p : α → Bool) (a : α) (l : List α)
    (h : ¬ p a = true) : (a :: l).filter p = l.filter p := by
  simp [List.filter_cons, h]

lemma late_fee_total_filter (fee paid : ℚ) (now : ℤ) (dates : List String) :
    late_fee_total fee paid now
        (dates.filter (fun s => (parse_date s).isSome))
      = late_fee_total fee paid now dates := by
  induction dates with
  | nil => rfl
  | cons s l ih =>
    cases hp : parse_date s with
    | none =>
      rw [List.filter_cons_of_neg (by simp [hp]), ih, late_fee_total_cons,
        cycle_late_fee_of_unparseable fee paid now s hp, zero_add]
    | some d =>
      rw [List.filter_cons_of_pos (by simp [hp]), late_fee_total_cons,
        late_fee_total_cons, ih]

lemma cycle_dates_filter (l : List FeeCycle) (adm : String) :
    ((l.filter (fun c => (parse_date c.due_date).isSome)).filter
        (fun c => c.admission_no == adm)).map (fun c => c.due_date)
      = ((l.filter (fun c => c.admission_no == adm)).map
          (fun c => c.due_date)).filter (fun s => (parse_date s).isSome) := by
  induction l with
  | nil => rfl
  | cons c l ih =>
    by_cases h1 : ((parse_date c.due_date).isSome) = true
    · rw [filter_cons_pos (fun c => (parse_date c.due_date).isSome) c l h1]
      by_cases h2 : (c.admission_no == adm) = true
      · rw [filter_cons_pos (fun c => c.admission_no == adm) c _ h2,
          List.map_cons,
          filter_cons_pos (fun c => c.admission_no == adm) c l h2,
          List.map_cons,
          filter_cons_pos (fun s => (parse_date s).isSome) c.due_date _ h1,
          ih]
      · rw [filter_cons_neg (fun c => c.admission_no == adm) c _ h2,
          filter_cons_neg (fun c => c.admission_no == adm) c l h2, ih]
    · rw [filter_cons_neg (fun c => (parse_date c.due_date).isSome) c l h1]
      by_cases h2 : (c.admission_no == adm) = true
      · rw [filter_cons_pos (fun c => c.admission_no == adm) c l h2,
          List.map_cons,
          filter_cons_neg (fun s => (parse_date s).isSome) c.due_date _ h1,
          ih]
      · rw [filter_cons_neg (fun c => c.admission_no == adm) c l h2, ih]

/-! ## Helper lemmas about the phone pattern -/

lemma spec_tail_head (c : Char) (rest : List Char)
    (h : spec_tail (c :: rest) = true) : ¬ c = '+' := by
  intro hc
  subst hc
  simp only [spec_tail, Bool.and_eq_true, decide_eq_true_eq] at h
  exact absurd h.1.1.1.1 (by decide)

lemma phone_tail_iff (ds : List Char) :
    phone_tail_ok ds = true ↔
      (spec_tail ds = true ∨
        ∃ xs, ds = xs ++ ['\n'] ∧ spec_tail xs = true) := by
  cases ds with
  | nil =>
    constructor
    · intro h
      exact absurd h (by decide)
    · rintro (h | ⟨xs, hx, -⟩)
      · exact absurd h (by decide)
      · simp at hx
  | cons c rest =>
    constructor
    · intro h
      simp only [phone_tail_ok, Bool.and_eq_true, List.any_eq_true,
        List.mem_range, Bool.or_eq_true, decide_eq_true_eq,
        List.isEmpty_iff, beq_iff_eq] at h
      obtain ⟨hA, i, hi, ⟨h1, h2⟩, h3⟩ := h
      have hkle : 7 + i ≤ rest.length := by
        have h1c := h1
        rw [List.length_take] at h1c
        omega
      cases h3 with
      | inl hempty =>
        have hlen : rest.length ≤ 7 + i := by
          rw [← List.drop_eq_nil_iff]
          exact hempty
        have heq : rest.length = 7 + i := le_antisymm hlen hkle
        have hrest : rest.take (7 + i) = rest := by
          rw [← heq, List.take_length]
        left
        simp only [spec_tail, Bool.and_eq_true, decide_eq_true_eq]
        refine ⟨⟨⟨hA, ?_⟩, ?_⟩, ?_⟩
        · rw [← hrest]
          exact h2
        · omega
        · omega
      | inr hnl =>
        right
        refine ⟨c :: rest.take (7 + i), ?_, ?_⟩
        · rw [List.cons_append]
          congr 1
          conv_lhs => rw [← List.take_append_drop (7 + i) rest]
          rw [hnl]
        · simp only [spec_tail, Bool.and_eq_true, decide_eq_true_eq]
          refine ⟨⟨⟨hA, h2⟩, ?_⟩, ?_⟩


          · rw [h1]
            omega
          · rw [h1]
            omega
    · rintro (h | ⟨xs, hx, hxs⟩)
      · simp only [spec_tail, Bool.and_eq_true, decide_eq_true_eq] at h
        obtain ⟨⟨⟨hA, hdig⟩, h7⟩, h14⟩ := h
        simp only [phone_tail_ok, Bool.and_eq_true, List.any_eq_true,
          List.mem_range, Bool.or_eq_true, decide_eq_true_eq,
          List.isEmpty_iff, beq_iff_eq]
        refine ⟨hA, rest.length - 7, by omega, ⟨?_, ?_⟩, Or.inl ?_⟩
        · have hk : 7 + (rest.length - 7) = rest.length := by omega
          rw [hk, List.take_length]
        · have hk : 7 + (rest.length - 7) = rest.length := by omega
          rw [hk, List.take_length]
          exact hdig
        · have hk : 7 + (rest.length - 7) = rest.length := by omega
          rw [hk, List.drop_length]
      · cases xs with
        | nil =>
          exact absurd hxs (by decide)
        | cons x xs2 =>
          rw [List.cons_append] at hx
          injection hx with hc hrest
          subst hc
          subst hrest
          simp only [spec_tail, Bool.and_eq_true, decide_eq_true_eq] at hxs
          obtain ⟨⟨⟨hA, hdig⟩, h7⟩, h14⟩ := hxs
          simp only [phone_tail_ok, Bool.and_eq_true, List.any_eq_true,
            List.mem_range, Bool.or_eq_true, decide_eq_true_eq,
            List.isEmpty_iff, beq_iff_eq]
          have hk : 7 + (xs2.length - 7) = xs2.length := by omega
          refine ⟨hA, xs2.length - 7, by omega, ⟨?_, ?_⟩, Or.inr ?_⟩
          · rw [hk, List.take_left]
          · rw [hk, List.take_left]
            exact hdig
          · rw [hk, List.drop_left]

lemma phone_valid_iff (s : String) :
    is_valid_phone s = true ↔
      (phone_spec s = true ∨
        ∃ t : String, s = t ++ "\n" ∧ phone_spec t = true) := by
  simp only [is_valid_phone, phone_spec]
  rw [phone_tail_iff]
  refine or_congr Iff.rfl ?_
  constructor
  · rintro ⟨xs, hx, hxs⟩
    cases hcs : s.data with
    | nil =>
      rw [hcs] at hx
      simp [strip_plus] at hx
    | cons c rest =>
      rw [hcs] at hx
      simp only [strip_plus] at hx
      by_cases hc : c = '+'
      · rw [if_pos hc] at hx
        refine ⟨String.mk ('+' :: xs), ?_, ?_⟩
        · apply String.ext
          show s.data = ('+' :: xs) ++ ['\n']
          rw [hcs, hc, hx, List.cons_append]
        · show spec_tail (strip_plus ('+' :: xs)) = true
          simp only [strip_plus, if_true]
          exact hxs
      · rw [if_neg hc] at hx
        refine ⟨String.mk xs, ?_, ?_⟩
        · apply String.ext
          show s.data = xs ++ ['\n']
          rw [hcs]
          exact hx
        · show spec_tail (strip_plus xs) = true
          cases xs with
          | nil => exact absurd hxs (by decide)
          | cons y ys =>
            have hy : ¬ y = '+' := spec_tail_head y ys hxs
            simp only [strip_plus]
            rw [if_neg hy]
            exact hxs
  · rintro ⟨t, ht, hts⟩
    have hdata : s.data = t.data ++ ['\n'] := by
      rw [ht]
      rfl
    cases htd : t.data with
    | nil =>
      rw [htd] at hts
      exact absurd hts (by decide)
    | cons x xs2 =>
      rw [htd] at hts hdata
      by_cases hx2 : x = '+'
      · refine ⟨xs2, ?_, ?_⟩
        · rw [hdata, List.cons_append]
          simp only [strip_plus]
          rw [if_pos hx2]
        · simp only [strip_plus] at hts
          rw [if_pos hx2] at hts
          exact hts
      · refine ⟨x :: xs2, ?_, ?_⟩
        · rw [hdata, List.cons_append]
          simp only [strip_plus]
          rw [if_neg hx2, ← List.cons_append]
        · simp only [strip_plus] at hts
          rw [if_neg hx2] at hts
          exact hts

/-! ## Claim theorems -/

/-- C1: for a student whose class fee is 100, whose summed payments are
40, and who has exactly two fee cycles each exactly 2 whole weeks overdue
at the current time, `get_due_amount` returns 64.80: each overdue cycle
independently accrues (100 - 40) * 0.02 * 2 = 2.40 of late fee, giving a
late fee of 4.80 and a due amount of 100 + 4.80 - 40 = 324 / 5. -/
theorem due_amount_two_cycles_two_weeks (db : DB) (now : ℤ)
    (adm s1 s2 : String) (d1 d2 : ℕ)
    (hfee : get_total_fee db adm = some 100)
    (hpaid : get_total_paid db adm = 40)
    (hcyc : cycle_dates db adm = [s1, s2])
    (hp1 : parse_date s1 = some d1) (hp2 : parse_date s2 = some d2)
    (hl1 : (d1 : ℤ) * usPerDay < now) (hl2 : (d2 : ℤ) * usPerDay < now)
    (hw1 : weeks_late now d1 = 2) (hw2 : weeks_late now d2 = 2) :
    get_due_amount db now adm = some (324 / 5) := by
  have h1 : cycle_late_fee 100 40 now s1 = 12 / 5 := by
    simp only [cycle_late_fee, hp1, hw1, if_pos hl1]
    norm_num
  have h2 : cycle_late_fee 100 40 now s2 = 12 / 5 := by
    simp only [cycle_late_fee, hp2, hw2, if_pos hl2]
    norm_num
  rw [get_due_amount_of_fee db now adm 100 hfee, hpaid, hcyc,
    late_fee_total_cons, late_fee_total_cons, late_fee_total_nil, h1, h2]
  norm_num

/-- Witness for C1: the concrete database `dbLate` on 2026-10-12, with
cycles due 2026-09-28 (14 days late) and 2026-09-26 (16 days late). -/
theorem due_amount_two_cycles_two_weeks_witness :
    get_due_amount dbLate nowOct12 ("S1") = some (324 / 5) :=
  due_amount_two_cycles_two_weeks dbLate nowOct12 ("S1") ("2026-09-28")
    ("2026-09-26") (toordinal 2026 9 28) (toordinal 2026 9 26)
    (by rfl) (by simp [get_total_paid, dbLate]) (by rfl)
    (by decide) (by decide) (by decide) (by decide) (by decide) (by decide)

/-- C3: whenever `get_due_amount` returns a numeric result rather than
the absence signal, that result is greater than or equal to 0. -/
theorem due_amount_nonneg (db : DB) (now : ℤ) (adm : String) (q : ℚ)
    (h : get_due_amount db now adm = some q) : 0 ≤ q := by
  cases hfee : get_total_fee db adm with
  | none =>
    rw [get_due_amount_of_absent db now adm hfee] at h
    cases h
  | some fee =>
    rw [get_due_amount_of_fee db now adm fee hfee] at h
    injection h with h
    rw [← h]
    split_ifs with ht
    · linarith
    · exact le_refl 0

/-- Witness for C3: the overpaid student of `dbOverpaid` yields the
numeric result 0, which is nonnegative. -/
theorem due_amount_nonneg_witness : (0 : ℚ) ≤ 0 :=
  due_amount_nonneg dbOverpaid 0 ("S1") 0 (by
    rw [get_due_amount_of_fee dbOverpaid 0 ("S1") 50 rfl]
    have hp : get_total_paid dbOverpaid ("S1") = 80 := by
      simp [get_total_paid, dbOverpaid]
    have hc : cycle_dates dbOverpaid ("S1") = [] := rfl
    rw [hp, hc, late_fee_total_nil]
    norm_num)

/-- C4: when the admission number resolves to no student, or the class of
the resolved student has no configured fee row, `get_due_amount` returns
the absence signal regardless of payment and cycle data. -/
theorem due_amount_absence (db : DB) (now : ℤ) (adm : String)
    (h : db.students.find? (fun s => s.admission_no == adm) = none ∨
      ∀ s, db.students.find? (fun s => s.admission_no == adm) = some s →
        db.fee_structure.find? (fun r => r.class_name == s.class_name) = none) :
    get_due_amount db now adm = none := by
  rcases h with h | h
  · exact get_due_amount_of_absent db now adm (by simp only [get_total_fee, h])
  · cases hst : db.students.find? (fun s => s.admission_no == adm) with
    | none =>
      exact get_due_amount_of_absent db now adm (by simp only [get_total_fee, hst])
    | some s =>
      exact get_due_amount_of_absent db now adm
        (by simp only [get_total_fee, hst, h s hst])

/-- Witness for C4: in `dbNoFeeRow` the student exists, has payment and
cycle data, but the class has no fee row; the result is absence. -/
theorem due_amount_absence_witness :
    get_due_amount dbNoFeeRow nowOct12 ("S1") = none :=
  due_amount_absence dbNoFeeRow nowOct12 ("S1")
    (Or.inr (fun s hs => by cases Option.some.inj hs; rfl))

/-- C5: with a configured class fee and an empty fee-cycle list,
`get_due_amount` returns the fee minus the summed payments, floored at 0,
with no late fee. -/
theorem due_amount_no_cycles (db : DB) (now : ℤ) (adm : String) (fee : ℚ)
    (hfee : get_total_fee db adm = some fee)
    (hcyc : cycle_dates db adm = []) :
    get_due_amount db now adm
      = some (max (fee - get_total_paid db adm) 0) := by
  rw [get_due_amount_of_fee db now adm fee hfee, hcyc, late_fee_total_nil,
    add_zero]
  congr 1
  rcases le_or_lt (fee - get_total_paid db adm) 0 with h | h
  · rw [if_neg (not_lt.mpr h), max_eq_right h]
  · rw [if_pos h, max_eq_left (le_of_lt h)]

/-- Witness for C5: fee 50, payments 80 and no cycles give a due amount
of 0, not -30. -/
theorem due_amount_no_cycles_witness :
    get_due_amount dbOverpaid 0 ("S1") = some 0 := by
  have h := due_amount_no_cycles dbOverpaid 0 ("S1") 50 rfl rfl
  rw [h]
  have hp : get_total_paid dbOverpaid ("S1") = 80 := by
    simp [get_total_paid, dbOverpaid]
  rw [hp]
  norm_num

/-- C9: `get_due_amount` is deterministic: its result depends only on the
fee-schedule lookup, the summed payment history, the fee-cycle list of
the student and the current time, so two invocations with identical such
inputs yield identical results. -/
theorem due_amount_deterministic (db1 db2 : DB) (now : ℤ) (adm : String)
    (hfee : get_total_fee db1 adm = get_total_fee db2 adm)
    (hpaid : get_total_paid db1 adm = get_total_paid db2 adm)
    (hcyc : cycle_dates db1 adm = cycle_dates db2 adm) :
    get_due_amount db1 now adm = get_due_amount db2 now adm := by
  cases h2 : get_total_fee db2 adm with
  | none =>
    rw [get_due_amount_of_absent db1 now adm (hfee.trans h2),
      get_due_amount_of_absent db2 now adm h2]
  | some fee =>
    rw [get_due_amount_of_fee db1 now adm fee (hfee.trans h2),
      get_due_amount_of_fee db2 now adm fee h2, hpaid, hcyc]

/-- Witness for C9: `dbLate` and `dbLateTwin` differ only in the data of
another student, so student S1 gets the same due amount in both. -/
theorem due_amount_deterministic_witness :
    get_due_amount dbLate nowOct12 ("S1")
      = get_due_amount dbLateTwin nowOct12 ("S1") :=
  due_amount_deterministic dbLate dbLateTwin nowOct12 ("S1") rfl rfl rfl

/-- C10: a configured class fee of exactly 0 is not absence: with
nonnegative summed payments the result is the numeric value 0 (no late
fee can accrue on a non-positive outstanding principal and the result is
floored at 0), distinguishable from the absence signal. -/
theorem due_amount_zero_fee (db : DB) (now : ℤ) (adm : String)
    (hfee : get_total_fee db adm = some 0)
    (hpaid : 0 ≤ get_total_paid db adm) :
    get_due_amount db now adm = some 0 := by
  rw [get_due_amount_of_fee db now adm 0 hfee,
    late_fee_total_of_nonpos 0 (get_total_paid db adm) now
      (cycle_dates db adm) (by linarith)]
  have h : ¬ (0 : ℚ) < 0 + 0 - get_total_paid db adm := by
    rw [not_lt]
    linarith
  rw [if_neg h]

/-- Witness for C10: in `dbZeroFee` the class fee row exists with amount
0, and the result is the numeric value 0, not absence. -/
theorem due_amount_zero_fee_witness :
    get_due_amount dbZeroFee nowOct12 ("S1") = some 0 :=
  due_amount_zero_fee dbZeroFee nowOct12 ("S1") rfl
    (by norm_num [get_total_paid, dbZeroFee])

/-- C7: a fee cycle whose due-date string fails to parse is silently
skipped: `get_due_amount` never aborts because of it, and the result
equals the result computed over only the validly parsed cycles. -/
theorem due_amount_skips_unparseable (db : DB) (now : ℤ) (adm : String) :
    get_due_amount db now adm
      = get_due_amount (drop_unparseable db) now adm := by
  cases hf : get_total_fee db adm with
  | none =>
    rw [get_due_amount_of_absent db now adm hf,
      get_due_amount_of_absent (drop_unparseable db) now adm hf]
  | some fee =>
    rw [get_due_amount_of_fee db now adm fee hf,
      get_due_amount_of_fee (drop_unparseable db) now adm fee hf]
    have hpaid : get_total_paid (drop_unparseable db) adm
        = get_total_paid db adm := rfl
    have hcyc : cycle_dates (drop_unparseable db) adm
        = (cycle_dates db adm).filter (fun s => (parse_date s).isSome) :=
      cycle_dates_filter db.fee_cycles adm
    rw [hpaid, hcyc, late_fee_total_filter]

/-- C2 counterexample: the claim that the inline due amount of the index
and send_reminders routes equals the result of `get_due_amount` fails: on
the overpaid student of `dbOverpaid` the inline route computes -30 while
`get_due_amount` returns 0. -/
theorem inline_due_counterexample :
    inline_due dbOverpaid stuOverpaid = -30 ∧
    get_due_amount dbOverpaid 0 ("S1") = some 0 ∧
    some (inline_due dbOverpaid stuOverpaid)
      ≠ get_due_amount dbOverpaid 0 ("S1") := by
  have hf : inline_total_fee dbOverpaid stuOverpaid = 50 := rfl
  have hp : get_total_paid dbOverpaid ("S1") = 80 := by
    simp [get_total_paid, dbOverpaid]
  have h1 : inline_due dbOverpaid stuOverpaid = -30 := by
    show inline_total_fee dbOverpaid stuOverpaid
        - get_total_paid dbOverpaid ("S1") = -30
    rw [hf, hp]
    norm_num
  have h2 : get_due_amount dbOverpaid 0 ("S1") = some 0 := by
    rw [get_due_amount_of_fee dbOverpaid 0 ("S1") 50 rfl]
    have hc : cycle_dates dbOverpaid ("S1") = [] := rfl
    rw [hp, hc, late_fee_total_nil]
    norm_num
  refine ⟨h1, h2, ?_⟩
  rw [h1, h2]
  intro h
  injection h with h
  norm_num at h

/-- C2 amended: the two route implementations are not one canonical
algorithm — the inline version bypasses late fees, cycles, the absence
signal and the floor at zero, and diverges from `get_due_amount` (see the
counterexample).  The inline result agrees with `get_due_amount` exactly
on students with a configured class fee, an empty fee-cycle list and
summed payments not exceeding the fee. -/
theorem inline_due_agreement (db : DB) (now : ℤ) (s : Student) (fee : ℚ)
    (hs : db.students.find? (fun t => t.admission_no == s.admission_no)
      = some s)
    (hfee : get_total_fee db s.admission_no = some fee)
    (hcyc : cycle_dates db s.admission_no = [])
    (hle : get_total_paid db s.admission_no ≤ fee) :
    get_due_amount db now s.admission_no = some (inline_due db s) := by
  have hf : inline_total_fee db s = fee := by
    simp only [get_total_fee, hs] at hfee
    cases hr : db.fee_structure.find?
        (fun r => r.class_name == s.class_name) with
    | none =>
      rw [hr] at hfee
      cases hfee
    | some r =>
      rw [hr] at hfee
      injection hfee with hfee
      simp only [inline_total_fee, hr]
      exact hfee
  rw [get_due_amount_of_fee db now s.admission_no fee hfee, hcyc,
    late_fee_total_nil, add_zero, inline_due, hf]
  congr 1
  rcases (sub_nonneg.mpr hle).lt_or_eq with h | h
  · rw [if_pos h]
  · rw [if_neg (by rw [← h]; exact lt_irrefl 0), ← h]

/-- Witness for the amended C2: on `dbPlain` (configured fee 100, summed
payments 40, no cycles) the inline result and `get_due_amount` agree. -/
theorem inline_due_agreement_witness :
    get_due_amount dbPlain 0 stuPlain.admission_no
      = some (inline_due dbPlain stuPlain) :=
  inline_due_agreement dbPlain 0 stuPlain 100 rfl rfl rfl
    (by norm_num [get_total_paid, dbPlain, stuPlain])

/-- C6: `weeks_late` is the floor of elapsed days divided by 7, and a
cycle contributes only when it is positive: a cycle due exactly 13 days
before the current time has `weeks_late = 1` and accrues one week of
penalty on a positive outstanding principal, while a cycle due 6 days
before has `weeks_late = 0` and accrues nothing. -/
theorem weeks_late_boundary (d : ℕ) (now13 now6 : ℤ) (fee paid : ℚ)
    (s : String) (hs : parse_date s = some d)
    (h13 : now13 = (d : ℤ) * usPerDay + 13 * usPerDay)
    (h6 : now6 = (d : ℤ) * usPerDay + 6 * usPerDay)
    (hp : 0 < fee - paid) :
    weeks_late now13 d = 1 ∧
    cycle_late_fee fee paid now13 s = (fee - paid) * 0.02 * 1 ∧
    weeks_late now6 d = 0 ∧
    cycle_late_fee fee paid now6 s = 0 := by
  have e13 : (d : ℤ) * usPerDay + 13 * usPerDay - (d : ℤ) * usPerDay
      = 13 * usPerDay := by ring
  have e6 : (d : ℤ) * usPerDay + 6 * usPerDay - (d : ℤ) * usPerDay
      = 6 * usPerDay := by ring
  have hw13 : weeks_late now13 d = 1 := by
    rw [weeks_late, h13, e13]
    decide
  have hw6 : weeks_late now6 d = 0 := by
    rw [weeks_late, h6, e6]
    decide
  have hlt13 : (d : ℤ) * usPerDay < now13 := by
    rw [h13]
    have h0 : (0 : ℤ) < 13 * usPerDay := by decide
    linarith
  have hlt6 : (d : ℤ) * usPerDay < now6 := by
    rw [h6]
    have h0 : (0 : ℤ) < 6 * usPerDay := by decide
    linarith
  refine ⟨hw13, ?_, hw6, ?_⟩
  · simp only [cycle_late_fee, hs, hw13, if_pos hlt13]
    rw [if_pos (⟨Nat.one_pos, hp⟩ : 0 < 1 ∧ 0 < fee - paid)]
    norm_num
  · simp only [cycle_late_fee, hs, hw6, if_pos hlt6]
    rw [if_neg]
    rintro ⟨h0, -⟩
    exact Nat.lt_irrefl 0 h0

/-- C8 counterexample: `is_valid_phone` does not accept exactly the
strings of the claimed shape: the string of 8 digits followed by one
newline is accepted by the Python regex (the dollar anchor matches just
before a trailing newline) but does not match the claimed shape. -/
theorem phone_claim_counterexample :
    is_valid_phone ("12345678\n") = true ∧
    phone_spec ("12345678\n") = false ∧
    ¬ is_valid_phone ("12345678\n") = phone_spec ("12345678\n") :=
  ⟨by decide, by decide, by decide⟩

/-- C8 amended: `is_valid_phone` accepts exactly the strings matching an
optional leading plus, a first digit 1 to 9 and 7 to 14 more digits
(8 to 15 digits total, no leading zero), together with exactly those
strings followed by one trailing newline; in particular the string
+12345678 is valid while 0123456789 and 123 are invalid. -/
theorem is_valid_phone_characterization :
    (∀ s : String, is_valid_phone s = true ↔
      (phone_spec s = true ∨
        ∃ t : String, s = t ++ "\n" ∧ phone_spec t = true)) ∧
    is_valid_phone ("+12345678") = true ∧
    is_valid_phone ("0123456789") = false ∧
    is_valid_phone ("123") = false :=
  ⟨phone_valid_iff, by decide, by decide, by decide⟩

/-- Witness for C6: the date 2026-01-01 with current times exactly 13 and
6 days later, fee 100 and payments 40. -/
theorem weeks_late_boundary_witness :
    weeks_late ((toordinal 2026 1 1 : ℤ) * usPerDay + 13 * usPerDay)
        (toordinal 2026 1 1) = 1 ∧
    cycle_late_fee 100 40
        ((toordinal 2026 1 1 : ℤ) * usPerDay + 13 * usPerDay)
        ("2026-01-01") = (100 - 40) * 0.02 * 1 ∧
    weeks_late ((toordinal 2026 1 1 : ℤ) * usPerDay + 6 * usPerDay)
        (toordinal 2026 1 1) = 0 ∧
    cycle_late_fee 100 40
        ((toordinal 2026 1 1 : ℤ) * usPerDay + 6 * usPerDay)
        ("2026-01-01") = 0 :=
  weeks_late_boundary (toordinal 2026 1 1) _ _ 100 40 ("2026-01-01")
    (by decide) rfl rfl (by norm_num)

end FeeSystem
